import Mathlib

/-!
Verification development for the Hande AI streaming response pipeline.

The definitions below are a shallow embedding of the core orchestration
logic of the repository:

* `Hande.py` — class `ThreadSafeHandeAI` (queue-based event producer
  `generate_response_safe`, keyword check `needs_web_search`, model
  fallback loop) and class `ThreadSafeHandeGUI` (`send_message` guard).
* `Hande_GUI.py` — class `HandeAI` (SQLite-backed conversation store:
  `create_new_conversation`, `save_conversation`, `get_conversations`,
  `get_conversation_context`; the context-assembly phase of
  `generate_response_streaming` with its two sequential future waits;
  the richer `needs_web_search` lexicon) and class `HandeGUI`
  (`send_message` with no busy guard).

Machine strings are Lean `String`s, wall-clock instants and durations are
natural numbers of milliseconds, and SQLite tables are Lean lists kept in
insertion (rowid) order.
-/

/-- Typed stream events, the tagged variants that `generate_response_safe`
in `Hande.py` puts on the `message_queue`: `("status", s)`,
`("start_stream", "")`, `("char", c)`, `("complete", full)`,
`("error", msg)`. -/
inductive Event where
  | status (s : String)
  | streamStart
  | char (c : Char)
  | complete (s : String)
  | error (s : String)
deriving DecidableEq, Repr

def Event.isStatus : Event → Bool
  | .status _ => true
  | _ => false

def Event.isChar : Event → Bool
  | .char _ => true
  | _ => false

def Event.isComplete : Event → Bool
  | .complete _ => true
  | _ => false

def Event.isError : Event → Bool
  | .error _ => true
  | _ => false

/-- A terminal event is a `complete` or an `error`. -/
def Event.isTerminal : Event → Bool
  | .complete _ => true
  | .error _ => true
  | _ => false

/-- `startsWith hay needle` : `needle` is a leading segment of `hay`
(character-level model of Python `str.startswith`). -/
def startsWith : List Char → List Char → Bool
  | _, [] => true
  | [], _ :: _ => false
  | h :: hs, n :: ns => h == n && startsWith hs ns

/-- `containsSub needle hay` : `needle` occurs contiguously inside `hay`
(character-level model of Python's `needle in hay`). -/
def containsSub (needle : List Char) : List Char → Bool
  | [] => startsWith [] needle
  | h :: t => startsWith (h :: t) needle || containsSub needle t

/-- The recency lexicon of `ThreadSafeHandeAI.needs_web_search`
(`Hande.py`, `indicators`). -/
def indicators_ts : List String :=
  ["today", "now", "current", "weather", "news", "president", "latest"]

/-- The recency lexicon of `HandeAI.needs_web_search`
(`Hande_GUI.py`, `current_indicators`). -/
def indicators_gui : List String :=
  ["today", "now", "current", "latest", "recent", "2024", "2025",
   "weather", "news", "stock", "price", "president", "date", "time"]

/-- `ThreadSafeHandeAI.needs_web_search` (`Hande.py`): membership of any
lexicon token in the lowercased query. -/
def needs_web_search_ts (query : String) : Bool :=
  indicators_ts.any fun w => containsSub w.data (query.data.map Char.toLower)

/-- `HandeAI.needs_web_search` (`Hande_GUI.py`): same check against the
larger lexicon. -/
def needs_web_search_gui (query : String) : Bool :=
  indicators_gui.any fun w => containsSub w.data (query.data.map Char.toLower)

/-- The model-fallback loop of `generate_response_safe` / the `ModelInvoker`
contract: each list entry is the outcome of contacting one candidate in
order (`some r` = that backend returned response text `r`, `none` = the
`ollama.chat` call raised).  The loop stops at the first success. -/
def invoke : List (Option String) → Option String
  | [] => none
  | some r :: _ => some r
  | none :: rest => invoke rest

/-- How many candidates the fallback loop actually contacts: every failure
costs one attempt and the loop stops right after the first success. -/
def attempts : List (Option String) → Nat
  | [] => 0
  | some _ :: _ => 1
  | none :: rest => 1 + attempts rest

/-- The character-emission loop of `generate_response_safe`: the stop
event is polled before each emission, so if the signal is raised after
exactly `k` characters have been emitted the loop breaks there.
`cancelAfter = none` means the signal is never raised during the turn. -/
def streamChars (resp : List Char) : Option Nat → List Char
  | none => resp
  | some k => resp.take k

/-- The status-event prefix of `generate_response_safe`: always
"Thinking...", then "Searching web..." exactly when the query needs a web
search, then "Generating response...". -/
def statusEvents (query : String) : List Event :=
  [Event.status "🟡 Thinking..."]
    ++ (if needs_web_search_ts query then [Event.status "🟡 Searching web..."] else [])
    ++ [Event.status "🟡 Generating response..."]

/-- The full event trace of one turn of
`ThreadSafeHandeAI.generate_response_safe` (`Hande.py`), together with
whether `save_conversation_async` was called for the turn.
`models` lists the per-candidate backend outcomes; `cancelAfter` is the
number of characters emitted before the stop signal is observed.
Note the source puts `("complete", full_response)` and schedules the save
unconditionally after the emission loop, whether or not the loop was
broken by the stop event. -/
def generateTrace (query : String) (models : List (Option String))
    (cancelAfter : Option Nat) : List Event × Bool :=
  match invoke models with
  | none => (statusEvents query ++ [Event.error "❌ No Ollama models available"], false)
  | some resp =>
      (statusEvents query ++ [Event.streamStart]
        ++ (streamChars resp.data cancelAfter).map Event.char
        ++ [Event.complete resp], true)

/-- The spec's event grammar `Status* (StreamStart Char* (Complete|Error))?`
as a decidable checker: a maximal status prefix, then either nothing or a
`StreamStart`, a run of `Char`s and exactly one terminal event. -/
def matchesGrammar (es : List Event) : Bool :=
  match es.dropWhile Event.isStatus with
  | [] => true
  | Event.streamStart :: rest =>
      match rest.dropWhile Event.isChar with
      | [Event.complete _] => true
      | [Event.error _] => true
      | _ => false
  | _ => false

/-- The grammar amended with a bare terminal-`Error` alternative:
`Status* (Error | StreamStart Char* (Complete|Error))?`.  This is the
shape the code actually produces (the all-candidates-failed path emits
its `Error` without a preceding `StreamStart`). -/
def matchesGrammarAmended (es : List Event) : Bool :=
  match es.dropWhile Event.isStatus with
  | [] => true
  | [Event.error _] => true
  | Event.streamStart :: rest =>
      match rest.dropWhile Event.isChar with
      | [Event.complete _] => true
      | [Event.error _] => true
      | _ => false
  | _ => false

/-- Number of `char` events in a trace. -/
def countChars (es : List Event) : Nat := (es.filter Event.isChar).length

/-- Number of terminal events in a trace. -/
def countTerminals (es : List Event) : Nat := (es.filter Event.isTerminal).length

/-- `true` when no event follows the first terminal event of the trace. -/
def noEventAfterTerminal (es : List Event) : Bool :=
  match es.dropWhile (fun e => !e.isTerminal) with
  | [] => true
  | _ :: rest => rest.isEmpty

/-! ### The conversation store — `HandeAI` in `Hande_GUI.py` backed by the
`conversations` and `conversation_sessions` SQLite tables.  Timestamps
are modelled as naturals; a table is a list of rows in insertion order. -/

/-- One row of `conversation_sessions` (`id TEXT PRIMARY KEY`, `title`,
`created_at`, `last_updated`, `message_count INTEGER DEFAULT 0`). -/
structure Session where
  id : String
  title : String
  created_at : Nat
  last_updated : Nat
  message_count : Nat
deriving DecidableEq, Repr

/-- One row of `conversations`; `rowid` is the `AUTOINCREMENT` primary
key, a monotone insertion sequence. -/
structure Turn where
  rowid : Nat
  conversation_id : String
  timestamp : Nat
  user_message : String
  ai_response : String
deriving DecidableEq, Repr

/-- The database: both tables, in insertion order, and the next
`AUTOINCREMENT` id. -/
structure Store where
  turns : List Turn
  sessions : List Session
  nextRowid : Nat
deriving DecidableEq, Repr

/-- A freshly initialised database (`init_memory_system`). -/
def emptyStore : Store := ⟨[], [], 1⟩

/-- `UPDATE conversation_sessions SET ... WHERE id = cid`: apply `f` to
every session row whose id matches `cid`. -/
def updateSession (l : List Session) (cid : String) (f : Session → Session) :
    List Session :=
  l.map fun s => if s.id == cid then f s else s

/-- Title truncation in `save_conversation`:
`user_msg[:30] + "..." if len(user_msg) > 30 else user_msg`. -/
def truncate30 (msg : String) : String :=
  if msg.length > 30 then msg.take 30 ++ "..." else msg

/-- `HandeAI.create_new_conversation`: insert a fresh session row titled
"New Chat"; `message_count` takes its SQL default 0. -/
def create_new_conversation (st : Store) (cid : String) (now : Nat) : Store :=
  { st with sessions := st.sessions ++ [⟨cid, "New Chat", now, now, 0⟩] }

/-- The turn row inserted by `save_conversation`. -/
def save_turnRow (st : Store) (cid user ai : String) (now : Nat) : Turn :=
  ⟨st.nextRowid, cid, now, user, ai⟩

/-- The per-session effect of the `UPDATE ... SET last_updated = ?,
message_count = message_count + 1` statement of `save_conversation`. -/
def bumpSession (now : Nat) (s : Session) : Session :=
  { s with last_updated := now, message_count := s.message_count + 1 }

/-- The per-session effect of the conditional
`UPDATE conversation_sessions SET title = ?` statement. -/
def setTitle (user : String) (t : Session) : Session :=
  { t with title := truncate30 user }

/-- The session-table effect of `save_conversation`: bump the owning
session's `last_updated` and `message_count`; then re-read the count and,
when it is 1 — i.e. on the first appended turn — set the title from the
user text. -/
def save_sessions (sessions : List Session) (cid user : String) (now : Nat) :
    List Session :=
  match (updateSession sessions cid (bumpSession now)).find? (fun s => s.id == cid) with
  | some s =>
      if s.message_count == 1 then
        updateSession (updateSession sessions cid (bumpSession now)) cid (setTitle user)
      else updateSession sessions cid (bumpSession now)
  | none => updateSession sessions cid (bumpSession now)

/-- `HandeAI.save_conversation` (`Hande_GUI.py`), the committed
transaction: insert the turn row and update the owning session's
metadata in one transaction. -/
def save_conversation (st : Store) (cid user ai : String) (now : Nat) : Store :=
  { turns := st.turns ++ [save_turnRow st cid user ai now],
    sessions := save_sessions st.sessions cid user now,
    nextRowid := st.nextRowid + 1 }

/-- `save_conversation` with its failure handling: the body runs inside
`BEGIN TRANSACTION ... COMMIT` and the `except` clause issues `ROLLBACK`,
so a save in which any step raises leaves the database exactly as it
was. -/
def save_conversation_tx (st : Store) (cid user ai : String) (now : Nat)
    (failed : Bool) : Store :=
  if failed then st else save_conversation st cid user ai now

/-- Insertion step of the `ORDER BY last_updated DESC` model. -/
def insertByUpdated (s : Session) : List Session → List Session
  | [] => [s]
  | t :: ts =>
      if t.last_updated ≤ s.last_updated then s :: t :: ts
      else t :: insertByUpdated s ts

/-- `ORDER BY last_updated DESC` as an insertion sort. -/
def sortByUpdatedDesc : List Session → List Session
  | [] => []
  | s :: ss => insertByUpdated s (sortByUpdatedDesc ss)

/-- `HandeAI.get_conversations`: `SELECT id, title, created_at,
message_count FROM conversation_sessions ORDER BY last_updated DESC
LIMIT 50`. -/
def get_conversations (st : Store) : List (String × String × Nat × Nat) :=
  ((sortByUpdatedDesc st.sessions).take 50).map fun s =>
    (s.id, s.title, s.created_at, s.message_count)

/-- `HandeAI.get_conversation_context`: `SELECT user_message, ai_response
FROM conversations WHERE conversation_id = ? ORDER BY id DESC LIMIT ?`,
then `list(reversed(history))` — the last `limit` turns of the session in
insertion order, most-recent-last. -/
def get_conversation_context (st : Store) (cid : String) (limit : Nat) :
    List (String × String) :=
  ((((st.turns.filter fun t => t.conversation_id == cid).reverse).take limit).reverse).map
    fun t => (t.user_message, t.ai_response)

/-- A sequence of successful saves on one session; each entry is
`(user, (ai, now))`. -/
def appendTurns (st : Store) (cid : String) : List (String × String × Nat) → Store
  | [] => st
  | m :: ms => appendTurns (save_conversation st cid m.1 m.2.1 m.2.2) cid ms

/-- Store consistency: every session's counter equals the number of turn
rows recorded for it. -/
def countsMatch (st : Store) : Prop :=
  ∀ s ∈ st.sessions,
    s.message_count = (st.turns.filter fun t => t.conversation_id == s.id).length

/-! ### Timing model of the context-assembly phase of
`HandeAI.generate_response_streaming` (`Hande_GUI.py`). -/

/-- `context_future.result(timeout=0.5)` — 500 ms. -/
def RECENT_CONTEXT_TIMEOUT_MS : Nat := 500

/-- `web_future.result(timeout=1.0)` — 1000 ms. -/
def WEB_TIMEOUT_MS : Nat := 1000

/-- Timing of `future.result(timeout)`: both lookups are submitted at
instant 0; a wait entered at instant `start` on a lookup completing at
instant `done` returns at `done` when the lookup is already finished or
finishes within budget, and gives up at `start + timeout` otherwise. -/
def waitResult (start timeout done : Nat) : Nat :=
  min (max start done) (start + timeout)

/-- The instant at which the context-assembly phase finishes: first the
recent-turns wait, then — only when `needs_web_search` launched a web
future — the web wait, sequentially on the worker thread. -/
def assembleTime (ctxDone webDone : Nat) (webNeeded : Bool) : Nat :=
  let t1 := waitResult 0 RECENT_CONTEXT_TIMEOUT_MS ctxDone
  if webNeeded then waitResult t1 WEB_TIMEOUT_MS webDone else t1

/-! ### The `send_message` entry points of the two GUI classes. -/

/-- Whitespace test of Python `str.strip()` (ASCII whitespace suffices
for this model). -/
def isSpaceChar (c : Char) : Bool :=
  c == ' ' || c == '\t' || c == '\n' || c == '\r'

/-- Python `str.strip()`: drop whitespace from both ends. -/
def stripChars (l : List Char) : List Char :=
  ((l.dropWhile isSpaceChar).reverse.dropWhile isSpaceChar).reverse

/-- The GUI state `send_message` touches: whether the previous response
worker is still alive, the entry text, the chat transcript
(text, is_user), the stop flag, and the queued events. -/
structure GuiState where
  threadAlive : Bool
  entryText : String
  chat : List (String × Bool)
  stopEventSet : Bool
  queued : List Event
deriving DecidableEq, Repr

/-- Outcome of one `send_message` call.  `raisedError` models a
synchronously signalled error (what an `AlreadyGenerating` rejection
would look like); neither implementation ever produces it. -/
inductive SendOutcome where
  | droppedEmpty
  | droppedBusy
  | started
  | raisedError (msg : String)
deriving DecidableEq, Repr

/-- `ThreadSafeHandeGUI.send_message` (`Hande.py`): empty input is
ignored; while the previous worker is alive the call silently returns
(source comment: "Don't send if already generating") — no error is
signalled and no state changes; otherwise the message joins the chat,
the entry and queue are cleared, the stop flag is reset, and a new
worker starts. -/
def send_message_ts (st : GuiState) : GuiState × SendOutcome :=
  let message := stripChars st.entryText.data
  if message == [] then (st, .droppedEmpty)
  else if st.threadAlive then (st, .droppedBusy)
  else
    ({ st with
        chat := st.chat ++ [(String.mk message, true)],
        entryText := "",
        queued := [],
        stopEventSet := false,
        threadAlive := true }, .started)

/-- `HandeGUI.send_message` (`Hande_GUI.py`): same flow but with no busy
guard at all — a call while a worker is alive starts a second worker. -/
def send_message_fast (st : GuiState) : GuiState × SendOutcome :=
  let message := stripChars st.entryText.data
  if message == [] then (st, .droppedEmpty)
  else
    ({ st with
        chat := st.chat ++ [(String.mk message, true)],
        entryText := "",
        stopEventSet := false,
        threadAlive := true }, .started)
/-! ### Generic list helpers -/

theorem dropWhile_append_of_all {α : Type} (p : α → Bool) (xs ys : List α)
    (h : ∀ x ∈ xs, p x = true) :
    (xs ++ ys).dropWhile p = ys.dropWhile p := by
  induction xs with
  | nil => simp
  | cons a t ih =>
      have ha : p a = true := h a (List.mem_cons_self a t)
      simp only [List.cons_append, List.dropWhile_cons, ha, if_true]
      exact ih fun x hx => h x (List.mem_cons_of_mem a hx)

theorem filter_eq_nil_of_all_not {α : Type} (p : α → Bool) (xs : List α)
    (h : ∀ x ∈ xs, p x = false) :
    xs.filter p = [] := by
  induction xs with
  | nil => rfl
  | cons a t ih =>
      have ha : p a = false := h a (List.mem_cons_self a t)
      simp only [List.filter_cons, ha, Bool.false_eq_true, if_false]
      exact ih fun x hx => h x (List.mem_cons_of_mem a hx)

/-! ### Facts about the event-trace building blocks -/

theorem statusEvents_all_status (q : String) :
    ∀ e ∈ statusEvents q, Event.isStatus e = true := by
  intro e he
  unfold statusEvents at he
  split at he <;> simp only [List.append_assoc, List.cons_append, List.nil_append,
    List.mem_cons, List.not_mem_nil, or_false] at he
  · rcases he with rfl | rfl | rfl <;> rfl
  · rcases he with rfl | rfl <;> rfl

theorem status_not_terminal {e : Event} (h : Event.isStatus e = true) :
    Event.isTerminal e = false := by
  cases e <;> simp_all [Event.isStatus, Event.isTerminal]

theorem status_not_char {e : Event} (h : Event.isStatus e = true) :
    Event.isChar e = false := by
  cases e <;> simp_all [Event.isStatus, Event.isChar]

theorem map_char_all_char (cs : List Char) :
    ∀ e ∈ cs.map Event.char, Event.isChar e = true := by
  intro e he
  rcases List.mem_map.mp he with ⟨c, _, rfl⟩
  rfl

/-- C10: `needs_web_search` is a pure, deterministic, case-insensitive
keyword match against a fixed lexicon: both implementations yield the
same boolean on repeated calls, and on the spec's scenarios the query
"What's the weather today?" yields `true` and "Explain recursion" yields
`false` (for the `Hande_GUI.py` lexicon and the `Hande.py` lexicon
alike). -/
theorem C10_needs_web_search_pure_scenarios :
    (∀ q : String, needs_web_search_gui q = needs_web_search_gui q
        ∧ needs_web_search_ts q = needs_web_search_ts q)
    ∧ needs_web_search_gui "What's the weather today?" = true
    ∧ needs_web_search_gui "Explain recursion" = false
    ∧ needs_web_search_ts "What's the weather today?" = true
    ∧ needs_web_search_ts "Explain recursion" = false :=
  ⟨fun _ => ⟨rfl, rfl⟩, by decide, by decide, by decide, by decide⟩

/-- C5: the fallback loop returns the response of the first candidate
that succeeds without contacting any later candidate (after skipping the
failing prefix it makes exactly `pre.length + 1` attempts), and it
reports no-backend-available — surfaced as the trace's single `Error`
event — if and only if every candidate fails. -/
theorem C5_invoke_first_success_no_backend :
    (∀ l : List (Option String), (invoke l = none ↔ ∀ r ∈ l, r = none))
    ∧ (∀ (pre : List (Option String)) (r : String) (post : List (Option String)),
        (∀ x ∈ pre, x = none) →
        invoke (pre ++ some r :: post) = some r
          ∧ attempts (pre ++ some r :: post) = pre.length + 1)
    ∧ (∀ (q : String) (l : List (Option String)) (c : Option Nat),
        (generateTrace q l c).1.any Event.isError = true ↔ invoke l = none) := by
  refine ⟨?_, ?_, ?_⟩
  · intro l
    induction l with
    | nil => simp [invoke]
    | cons a t ih =>
        cases a with
        | none => simpa [invoke] using ih
        | some r => simp [invoke]
  · intro pre r post h
    induction pre with
    | nil => simp [invoke, attempts]
    | cons a t ih =>
        have ha : a = none := h a (List.mem_cons_self a t)
        subst ha
        obtain ⟨h1, h2⟩ := ih fun x hx => h x (List.mem_cons_of_mem none hx)
        refine ⟨h1, ?_⟩
        have hstep : attempts ((none :: t) ++ some r :: post)
            = 1 + attempts (t ++ some r :: post) := rfl
        rw [hstep, h2, List.length_cons]
        omega
  · intro q l c
    unfold generateTrace
    cases hinv : invoke l with
    | none =>
        simp only [List.any_append, List.any_cons, List.any_nil]
        have hs : (statusEvents q).any Event.isError = false := by
          rw [List.any_eq_false]
          intro e he
          have := statusEvents_all_status q e he
          cases e <;> simp_all [Event.isStatus, Event.isError]
        simp [hs, Event.isError]
    | some resp =>
        simp only [List.any_append, List.any_cons, List.any_nil]
        have hs : (statusEvents q).any Event.isError = false := by
          rw [List.any_eq_false]
          intro e he
          have := statusEvents_all_status q e he
          cases e <;> simp_all [Event.isStatus, Event.isError]
        have hc : ((streamChars resp.data c).map Event.char).any Event.isError = false := by
          rw [List.any_eq_false]
          intro e he
          have := map_char_all_char _ e he
          cases e <;> simp_all [Event.isChar, Event.isError]
        simp [hs, hc, Event.isError]

theorem char_not_terminal {e : Event} (h : Event.isChar e = true) :
    Event.isTerminal e = false := by
  cases e <;> simp_all [Event.isChar, Event.isTerminal]

/-- C5 witness: with candidates `[A, B, C]` where A and B fail and C
succeeds, the loop returns C's response after exactly three attempts. -/
theorem C5_invoke_witness :
    invoke [none, none, some "C"] = some "C"
      ∧ attempts [none, none, some "C"] = 3 := by
  have h := C5_invoke_first_success_no_backend.2.1 [none, none] "C" [] (by decide)
  exact ⟨h.1, h.2⟩

/-- C1 counterexample: response "ab", signal raised after exactly one
emitted character (k = 1 < 2).  The channel does hold exactly one `Char`
event, but — contrary to the claim — a `Complete` event is still put on
the channel and the interrupted turn is still handed to
`save_conversation_async` (persisted flag `true`). -/
theorem C1_counterexample :
    countChars (generateTrace "hello" [some "ab"] (some 1)).1 = 1
    ∧ (generateTrace "hello" [some "ab"] (some 1)).1.any Event.isComplete = true
    ∧ (generateTrace "hello" [some "ab"] (some 1)).2 = true := by decide

/-- C1 amended: if the cancellation signal is observed after exactly `k`
characters have been emitted (k < length of the response), the turn's
channel contains exactly `k` `Char` events; however the worker still
emits a `Complete` event carrying the full response text and still
persists the interrupted turn. -/
theorem C1_cancel_exact_chars_still_completes_persists
    (q : String) (models : List (Option String)) (resp : String) (k : Nat)
    (hinv : invoke models = some resp) (hk : k < resp.data.length) :
    countChars (generateTrace q models (some k)).1 = k
    ∧ (generateTrace q models (some k)).1.any Event.isComplete = true
    ∧ (generateTrace q models (some k)).2 = true := by
  unfold generateTrace
  rw [hinv]
  refine ⟨?_, ?_, rfl⟩
  · have h1 : (statusEvents q).filter Event.isChar = [] :=
      filter_eq_nil_of_all_not _ _ fun e he => status_not_char (statusEvents_all_status q e he)
    have h2 : ((streamChars resp.data (some k)).map Event.char).filter Event.isChar
        = (streamChars resp.data (some k)).map Event.char :=
      List.filter_eq_self.mpr (map_char_all_char _)
    unfold countChars
    simp only [List.filter_append, h1, h2, List.nil_append, List.length_append,
      List.length_map]
    unfold streamChars
    simp only [List.length_take, List.filter_cons]
    norm_num [Event.isChar]
    have hlen : resp.length = resp.data.length := rfl
    omega
  · simp [List.any_append, Event.isComplete]

/-- C1 witness for the amended theorem: the k = 0 instance on response
"ab" — zero `Char` events, yet still a `Complete` event and a persist. -/
theorem C1_cancel_witness :
    countChars (generateTrace "hi" [some "ab"] (some 0)).1 = 0
    ∧ (generateTrace "hi" [some "ab"] (some 0)).1.any Event.isComplete = true
    ∧ (generateTrace "hi" [some "ab"] (some 0)).2 = true :=
  C1_cancel_exact_chars_still_completes_persists "hi" [some "ab"] "ab" 0 rfl (by decide)

/-- C2 counterexample: when every model candidate fails, the trace is
`Status* Error` with no preceding `StreamStart`, which the spec's grammar
`Status* (StreamStart Char* (Complete|Error))?` rejects. -/
theorem C2_counterexample :
    matchesGrammar (generateTrace "hello" [none] none).1 = false := by decide

/-- C2 amended: every turn's trace matches the amended grammar
`Status* (Error | StreamStart Char* (Complete|Error))?` (the
all-candidates-failed `Error` is emitted without a `StreamStart`); in
particular at most one terminal event occurs and no event follows it. -/
theorem C2_trace_grammar (q : String) (models : List (Option String))
    (cancelAfter : Option Nat) :
    matchesGrammarAmended (generateTrace q models cancelAfter).1 = true
    ∧ countTerminals (generateTrace q models cancelAfter).1 ≤ 1
    ∧ noEventAfterTerminal (generateTrace q models cancelAfter).1 = true := by
  have hsNT : ∀ e ∈ statusEvents q, (!e.isTerminal) = true := by
    intro e he
    simp [status_not_terminal (statusEvents_all_status q e he)]
  have hsFT : (statusEvents q).filter Event.isTerminal = [] :=
    filter_eq_nil_of_all_not _ _ fun e he =>
      status_not_terminal (statusEvents_all_status q e he)
  unfold generateTrace
  cases hinv : invoke models with
  | none =>
      refine ⟨?_, ?_, ?_⟩
      · have hd : ((statusEvents q ++ [Event.error "❌ No Ollama models available"]).dropWhile
            Event.isStatus) = [Event.error "❌ No Ollama models available"] := by
          rw [dropWhile_append_of_all _ _ _ (statusEvents_all_status q)]
          rfl
        unfold matchesGrammarAmended
        rw [hd]
      · unfold countTerminals
        simp [List.filter_append, hsFT, Event.isTerminal]
      · have hd : ((statusEvents q ++ [Event.error "❌ No Ollama models available"]).dropWhile
            (fun e => !e.isTerminal)) = [Event.error "❌ No Ollama models available"] := by
          rw [dropWhile_append_of_all _ _ _ hsNT]
          rfl
        unfold noEventAfterTerminal
        rw [hd]
        rfl
  | some resp =>
      have hcNT : ∀ e ∈ (streamChars resp.data cancelAfter).map Event.char,
          (!e.isTerminal) = true := by
        intro e he
        simp [char_not_terminal (map_char_all_char _ e he)]
      have hcFT : ((streamChars resp.data cancelAfter).map Event.char).filter
          Event.isTerminal = [] :=
        filter_eq_nil_of_all_not _ _ fun e he => char_not_terminal (map_char_all_char _ e he)
      refine ⟨?_, ?_, ?_⟩
      · have hd : ((statusEvents q ++ [Event.streamStart]
              ++ (streamChars resp.data cancelAfter).map Event.char
              ++ [Event.complete resp]).dropWhile Event.isStatus)
            = Event.streamStart :: ((streamChars resp.data cancelAfter).map Event.char
              ++ [Event.complete resp]) := by
          rw [List.append_assoc, List.append_assoc,
            dropWhile_append_of_all _ _ _ (statusEvents_all_status q)]
          rfl
        have hd2 : (((streamChars resp.data cancelAfter).map Event.char
              ++ [Event.complete resp]).dropWhile Event.isChar)
            = [Event.complete resp] := by
          rw [dropWhile_append_of_all _ _ _ (map_char_all_char _)]
          rfl
        unfold matchesGrammarAmended
        rw [hd]
        simp only []
        rw [hd2]
      · unfold countTerminals
        simp [List.filter_append, hsFT, hcFT, Event.isTerminal]
      · have hd : ((statusEvents q ++ [Event.streamStart]
              ++ (streamChars resp.data cancelAfter).map Event.char
              ++ [Event.complete resp]).dropWhile (fun e => !e.isTerminal))
            = [Event.complete resp] := by
          rw [List.append_assoc, List.append_assoc,
            dropWhile_append_of_all _ _ _ hsNT]
          rw [show ((([Event.streamStart] : List Event)
              ++ ((streamChars resp.data cancelAfter).map Event.char
                ++ [Event.complete resp])).dropWhile (fun e => !e.isTerminal))
            = (((streamChars resp.data cancelAfter).map Event.char
                ++ [Event.complete resp]).dropWhile (fun e => !e.isTerminal)) from rfl]
          rw [dropWhile_append_of_all _ _ _ hcNT]
          rfl
        unfold noEventAfterTerminal
        rw [hd]
        rfl

/-- C3 counterexample: when both lookups are still running at 2000 ms,
the two sequential waits block the worker for
500 ms + 1000 ms = 1500 ms, which exceeds
`max(recentContextTimeout, webTimeout)` = 1000 ms. -/
theorem C3_counterexample :
    assembleTime 2000 2000 true = 1500
    ∧ ¬ assembleTime 2000 2000 true ≤ max RECENT_CONTEXT_TIMEOUT_MS WEB_TIMEOUT_MS := by
  decide

/-- C3 amended: the context-assembly phase always returns within the SUM
of the two per-lookup timeouts (the waits are sequential, each with its
own fresh budget), regardless of how long the underlying lookups take. -/
theorem C3_assemble_within_sum_of_timeouts (ctxDone webDone : Nat) (webNeeded : Bool) :
    assembleTime ctxDone webDone webNeeded
      ≤ RECENT_CONTEXT_TIMEOUT_MS + WEB_TIMEOUT_MS := by
  unfold assembleTime waitResult RECENT_CONTEXT_TIMEOUT_MS WEB_TIMEOUT_MS
  cases webNeeded <;> simp only [if_true, if_false, Bool.false_eq_true] <;> omega

/-- C4 counterexample: a `send_message` call while the previous worker is
alive returns the silent-drop outcome `droppedBusy` — by definition not
the `raisedError` outcome the claim requires — and leaves the state
unchanged. -/
theorem C4_counterexample :
    send_message_ts ⟨true, "hi", [], false, []⟩
      = (⟨true, "hi", [], false, []⟩, SendOutcome.droppedBusy) := by decide

/-- C4 amended: in the `Hande.py` GUI a `send_message` call with
non-empty input while a prior worker is still alive returns synchronously
without queueing and changes no state, but it is silently dropped rather
than signalled as an `AlreadyGenerating` error; in the `Hande_GUI.py` GUI
there is no busy guard at all and the call starts a second worker. -/
theorem C4_busy_call_silently_dropped (st : GuiState)
    (hne : (stripChars st.entryText.data == []) = false)
    (hbusy : st.threadAlive = true) :
    send_message_ts st = (st, SendOutcome.droppedBusy)
    ∧ (send_message_fast st).2 = SendOutcome.started := by
  unfold send_message_ts send_message_fast
  simp [hne, hbusy]

/-- C4 witness: the amended theorem at the concrete busy state with entry
text "hi". -/
theorem C4_busy_witness :
    send_message_ts ⟨true, "hi", [], true, []⟩
      = (⟨true, "hi", [], true, []⟩, SendOutcome.droppedBusy)
    ∧ (send_message_fast ⟨true, "hi", [], true, []⟩).2 = SendOutcome.started :=
  C4_busy_call_silently_dropped ⟨true, "hi", [], true, []⟩ (by decide) rfl

/-! ### Store lemmas -/

theorem updateSession_nil (cid : String) (f : Session → Session) :
    updateSession [] cid f = [] := rfl

theorem updateSession_cons (a : Session) (t : List Session) (cid : String)
    (f : Session → Session) :
    updateSession (a :: t) cid f
      = (if a.id == cid then f a else a) :: updateSession t cid f := rfl

theorem find?_updateSession (l : List Session) (cid : String) (f : Session → Session)
    (hf : ∀ s : Session, (f s).id = s.id) :
    (updateSession l cid f).find? (fun s => s.id == cid)
      = (l.find? (fun s => s.id == cid)).map f := by
  induction l with
  | nil => rfl
  | cons a t ih =>
      rw [updateSession_cons]
      by_cases h : (a.id == cid) = true
      · have hpa : ((f a).id == cid) = true := by rw [hf a]; exact h
        rw [if_pos h,
          @List.find?_cons_of_pos Session (fun s => s.id == cid) (f a)
            (updateSession t cid f) hpa,
          @List.find?_cons_of_pos Session (fun s => s.id == cid) a t h]
        rfl
      · have h' : (a.id == cid) = false := by simpa using h
        rw [if_neg h,
          @List.find?_cons_of_neg Session (fun s => s.id == cid) a
            (updateSession t cid f) (by simp [h']),
          @List.find?_cons_of_neg Session (fun s => s.id == cid) a t (by simp [h'])]
        exact ih

theorem save_find? (st : Store) (cid user ai : String) (now : Nat) (s : Session)
    (hfind : st.sessions.find? (fun t => t.id == cid) = some s) :
    (save_conversation st cid user ai now).sessions.find? (fun t => t.id == cid)
      = some { s with
          last_updated := now,
          message_count := s.message_count + 1,
          title := if s.message_count = 0 then truncate30 user else s.title } := by
  have hbump : (updateSession st.sessions cid (bumpSession now)).find?
      (fun t => t.id == cid) = some (bumpSession now s) := by
    rw [find?_updateSession st.sessions cid (bumpSession now) (fun _ => rfl), hfind]
    rfl
  unfold save_conversation save_sessions
  simp only [hbump]
  by_cases hmc : s.message_count = 0
  · have hcond : ((bumpSession now s).message_count == 1) = true := by
      simp [bumpSession, hmc]
    rw [hcond]
    simp only [if_true]
    rw [find?_updateSession (updateSession st.sessions cid (bumpSession now)) cid
      (setTitle user) (fun _ => rfl), hbump]
    simp [bumpSession, setTitle, hmc]
  · have hcond : ((bumpSession now s).message_count == 1) = false := by
      simp [bumpSession]
      omega
    rw [hcond]
    simp only [Bool.false_eq_true, if_false]
    rw [hbump]
    simp [bumpSession, hmc]

theorem mem_updateSession {l : List Session} {cid : String} {f : Session → Session}
    {s' : Session} (h : s' ∈ updateSession l cid f) :
    ∃ s ∈ l, ((s.id == cid) = true ∧ s' = f s) ∨ ((s.id == cid) = false ∧ s' = s) := by
  unfold updateSession at h
  rcases List.mem_map.mp h with ⟨s, hs, he⟩
  refine ⟨s, hs, ?_⟩
  by_cases hid : (s.id == cid) = true
  · left
    rw [if_pos hid] at he
    exact ⟨hid, he.symm⟩
  · right
    have hid' : (s.id == cid) = false := by simpa using hid
    rw [if_neg hid] at he
    exact ⟨hid', he.symm⟩

theorem mem_updateSession_bump {l : List Session} {cid : String} {now : Nat}
    {s' : Session} (h : s' ∈ updateSession l cid (bumpSession now)) :
    ∃ s ∈ l, s'.id = s.id
      ∧ (((s.id == cid) = true ∧ s'.message_count = s.message_count + 1)
          ∨ ((s.id == cid) = false ∧ s'.message_count = s.message_count)) := by
  obtain ⟨s, hs, hc⟩ := mem_updateSession h
  rcases hc with ⟨hid, he⟩ | ⟨hid, he⟩
  · subst he
    exact ⟨s, hs, rfl, Or.inl ⟨hid, rfl⟩⟩
  · exact ⟨s, hs, by rw [he], Or.inr ⟨hid, by rw [he]⟩⟩

theorem mem_updateSession_title {l : List Session} {cid user : String}
    {s' : Session} (h : s' ∈ updateSession l cid (setTitle user)) :
    ∃ u ∈ l, s'.id = u.id ∧ s'.message_count = u.message_count := by
  obtain ⟨u, hu, hc⟩ := mem_updateSession h
  rcases hc with ⟨_, he⟩ | ⟨_, he⟩
  · subst he
    exact ⟨u, hu, rfl, rfl⟩
  · exact ⟨u, hu, by rw [he], by rw [he]⟩

theorem mem_save_sessions {sessions : List Session} {cid user : String} {now : Nat}
    {s' : Session} (h : s' ∈ save_sessions sessions cid user now) :
    ∃ s ∈ sessions, s'.id = s.id
      ∧ (((s.id == cid) = true ∧ s'.message_count = s.message_count + 1)
          ∨ ((s.id == cid) = false ∧ s'.message_count = s.message_count)) := by
  unfold save_sessions at h
  split at h
  · split at h
    · obtain ⟨u, hu, hid1, hmc1⟩ := mem_updateSession_title h
      obtain ⟨s, hs, hid2, hc⟩ := mem_updateSession_bump hu
      refine ⟨s, hs, hid1.trans hid2, ?_⟩
      rcases hc with ⟨ht, hm⟩ | ⟨ht, hm⟩
      · exact Or.inl ⟨ht, hmc1.trans hm⟩
      · exact Or.inr ⟨ht, hmc1.trans hm⟩
    · exact mem_updateSession_bump h
  · exact mem_updateSession_bump h

theorem countsMatch_save (st : Store) (cid user ai : String) (now : Nat)
    (h : countsMatch st) :
    countsMatch (save_conversation st cid user ai now) := by
  intro s' hs'
  unfold save_conversation at hs' ⊢
  simp only at hs' ⊢
  obtain ⟨s, hsmem, hid, hcase⟩ := mem_save_sessions hs'
  have hbase := h s hsmem
  rw [List.filter_append, List.length_append, hid]
  rcases hcase with ⟨htrue, hmc⟩ | ⟨hfalse, hmc⟩
  · have hcid : s.id = cid := by simpa using htrue
    have hrow : ((save_turnRow st cid user ai now).conversation_id == s.id) = true := by
      simp [save_turnRow, hcid]
    rw [hmc, hbase]
    simp [List.filter_cons, hrow]
  · have hcid : ¬ s.id = cid := by simpa using hfalse
    have hrow : ((save_turnRow st cid user ai now).conversation_id == s.id) = false := by
      simp [save_turnRow]
      exact fun hh => hcid hh.symm
    rw [hmc, hbase]
    simp [List.filter_cons, hrow]

theorem filter_cid_map_stamp (l : List Turn) (cid : String) (g : Turn → Nat) :
    (l.map fun t => { t with timestamp := g t }).filter (fun t => t.conversation_id == cid)
      = (l.filter fun t => t.conversation_id == cid).map
          (fun t => { t with timestamp := g t }) := by
  induction l with
  | nil => rfl
  | cons a l ih =>
      simp only [List.map_cons, List.filter_cons]
      by_cases h : (a.conversation_id == cid) = true
      · have h' : (({ a with timestamp := g a } : Turn).conversation_id == cid) = true := h
        simp only [h, h', if_true, List.map_cons, ih]
      · have hf : (a.conversation_id == cid) = false := by simpa using h
        have h' : (({ a with timestamp := g a } : Turn).conversation_id == cid) = false := hf
        simp only [hf, h', Bool.false_eq_true, if_false, ih]

theorem save_sessions_singleton (s : Session) (cid user : String) (now : Nat)
    (hid : (s.id == cid) = true) :
    ∃ s' : Session, save_sessions [s] cid user now = [s']
      ∧ s'.id = s.id ∧ s'.message_count = s.message_count + 1 := by
  have hup : updateSession [s] cid (bumpSession now) = [bumpSession now s] := by
    rw [updateSession_cons, if_pos hid, updateSession_nil]
  have hfind : (updateSession [s] cid (bumpSession now)).find? (fun t => t.id == cid)
      = some (bumpSession now s) := by
    rw [hup]
    exact @List.find?_cons_of_pos Session (fun t => t.id == cid) (bumpSession now s) [] hid
  unfold save_sessions
  simp only [hfind]
  by_cases hmc : ((bumpSession now s).message_count == 1) = true
  · rw [hmc]
    simp only [if_true, hup]
    refine ⟨setTitle user (bumpSession now s), ?_, rfl, rfl⟩
    rw [updateSession_cons, updateSession_nil,
      if_pos (show ((bumpSession now s).id == cid) = true from hid)]
  · have hmc' : ((bumpSession now s).message_count == 1) = false := by simpa using hmc
    rw [hmc']
    simp only [Bool.false_eq_true, if_false, hup]
    exact ⟨bumpSession now s, rfl, rfl, rfl⟩

theorem appendTurns_singleton (cid : String) (msgs : List (String × String × Nat)) :
    ∀ (st : Store) (s : Session), st.sessions = [s] → (s.id == cid) = true →
      ∃ s', (appendTurns st cid msgs).sessions = [s']
        ∧ (s'.id == cid) = true
        ∧ s'.message_count = s.message_count + msgs.length := by
  induction msgs with
  | nil =>
      intro st s hs hid
      exact ⟨s, by simpa [appendTurns] using hs, hid, by simp⟩
  | cons m ms ih =>
      intro st s hs hid
      obtain ⟨s1, h1, hid1, hmc1⟩ := save_sessions_singleton s cid m.1 m.2.2 hid
      have hs1 : (save_conversation st cid m.1 m.2.1 m.2.2).sessions = [s1] := by
        unfold save_conversation
        simpa [hs] using h1
      have hid1' : (s1.id == cid) = true := by rw [hid1]; exact hid
      obtain ⟨s', hfin, hid', hmc'⟩ := ih (save_conversation st cid m.1 m.2.1 m.2.2) s1 hs1 hid1'
      refine ⟨s', by simpa [appendTurns] using hfin, hid', ?_⟩
    
      rw [hmc', hmc1, List.length_cons]
      omega

/-- C6: each successful append bumps the stored session counter by
exactly one, and after N successful turns on a fresh session the session
listing (`get_conversations`) reports that session's turn count as
exactly N. -/
theorem C6_session_count_exact (st : Store) (cid : String) (s : Session)
    (user ai : String) (now : Nat) (t0 : Nat)
    (msgs : List (String × String × Nat))
    (hfind : st.sessions.find? (fun t => t.id == cid) = some s) :
    ((save_conversation st cid user ai now).sessions.find?
        (fun t => t.id == cid)).map (fun t => t.message_count)
      = some (s.message_count + 1)
    ∧ (get_conversations (appendTurns (create_new_conversation emptyStore cid t0)
          cid msgs)).map (fun r => (r.1, r.2.2.2))
        = [(cid, msgs.length)] := by
  constructor
  · rw [save_find? st cid user ai now s hfind]
    rfl
  · have hstart : (create_new_conversation emptyStore cid t0).sessions
        = [⟨cid, "New Chat", t0, t0, 0⟩] := rfl
    obtain ⟨s', hfin, hid', hmc'⟩ :=
      appendTurns_singleton cid msgs (create_new_conversation emptyStore cid t0)
        ⟨cid, "New Chat", t0, t0, 0⟩ hstart (by simp)
    have hid'' : s'.id = cid := by simpa using hid'
    unfold get_conversations
    rw [hfin]
    have hsort : sortByUpdatedDesc [s'] = [s'] := rfl
    rw [hsort]
    simp [hid'', hmc']

/-- C6 witness: two successful turns on a fresh session — the listing
reports exactly 2, and the single-append instance reports 0 + 1. -/
theorem C6_session_count_witness :
    ((save_conversation (create_new_conversation emptyStore "c" 5) "c" "u" "a" 6).sessions.find?
        (fun t => t.id == "c")).map (fun t => t.message_count) = some (0 + 1)
    ∧ (get_conversations (appendTurns (create_new_conversation emptyStore "c" 5) "c"
          [("u1", ("a1", 6)), ("u2", ("a2", 7))])).map (fun r => (r.1, r.2.2.2))
        = [("c", 2)] := by
  have h := C6_session_count_exact (create_new_conversation emptyStore "c" 5) "c"
    ⟨"c", "New Chat", 5, 5, 0⟩ "u" "a" 6 5
    [("u1", ("a1", 6)), ("u2", ("a2", 7))] (by decide)
  exact ⟨h.1, h.2⟩

/-- C7: `save_conversation` is transactional — a failing save rolls the
whole update back leaving both tables unchanged, a successful save
applies the turn insert and the session-metadata update together, and in
either case every session's counter still equals the number of turn rows
recorded for it. -/
theorem C7_append_turn_atomic :
    (∀ (st : Store) (cid user ai : String) (now : Nat),
        save_conversation_tx st cid user ai now true = st
          ∧ save_conversation_tx st cid user ai now false
              = save_conversation st cid user ai now)
    ∧ (∀ (st : Store) (cid user ai : String) (now : Nat) (failed : Bool),
        countsMatch st → countsMatch (save_conversation_tx st cid user ai now failed)) := by
  refine ⟨fun st cid user ai now => ⟨rfl, rfl⟩, ?_⟩
  intro st cid user ai now failed h
  cases failed
  · simpa [save_conversation_tx] using countsMatch_save st cid user ai now h
  · simpa [save_conversation_tx] using h

/-- C7 witness: on the empty store, a failing save leaves the store
unchanged and a successful save preserves the counter invariant. -/
theorem C7_append_turn_witness :
    save_conversation_tx emptyStore "c" "u" "a" 7 true = emptyStore
    ∧ countsMatch (save_conversation_tx emptyStore "c" "u" "a" 7 false) :=
  ⟨(C7_append_turn_atomic.1 emptyStore "c" "u" "a" 7).1,
   C7_append_turn_atomic.2 emptyStore "c" "u" "a" 7 false
     (fun s hs => absurd hs (by simp [emptyStore]))⟩

/-- C8: an appended turn bumps the owning session's `last_updated` and
count; the title is set (truncated) from the user text exactly when the
session had no prior turn (count 0), otherwise title — and always the
creation timestamp — are left unchanged. -/
theorem C8_title_on_first_turn_only (st : Store) (cid user ai : String)
    (now : Nat) (s : Session)
    (hfind : st.sessions.find? (fun t => t.id == cid) = some s) :
    (save_conversation st cid user ai now).sessions.find? (fun t => t.id == cid)
      = some { s with
          last_updated := now,
          message_count := s.message_count + 1,
          title := if s.message_count = 0 then truncate30 user else s.title } :=
  save_find? st cid user ai now s hfind

/-- C8 witness: first append sets the (short, untruncated) title from
the user text; a second append leaves it unchanged. -/
theorem C8_title_witness :
    (save_conversation (create_new_conversation emptyStore "c" 5) "c" "hello" "r1" 6).sessions.find?
        (fun t => t.id == "c")
      = some ⟨"c", if (0 : Nat) = 0 then truncate30 "hello" else "New Chat", 5, 6, 0 + 1⟩
    ∧ (save_conversation
          (save_conversation (create_new_conversation emptyStore "c" 5) "c" "hello" "r1" 6)
          "c" "second" "r2" 7).sessions.find? (fun t => t.id == "c")
      = some ⟨"c", "hello", 5, 7, 2⟩ := by
  constructor
  · exact C8_title_on_first_turn_only (create_new_conversation emptyStore "c" 5)
      "c" "hello" "r1" 6 ⟨"c", "New Chat", 5, 5, 0⟩ (by decide)
  · have h := C8_title_on_first_turn_only
      (save_conversation (create_new_conversation emptyStore "c" 5) "c" "hello" "r1" 6)
      "c" "second" "r2" 7 ⟨"c", truncate30 "hello", 5, 6, 1⟩ (by decide)
    simpa [truncate30] using h

/-- C9: `get_conversation_context` returns at most `limit` pairs; it is
exactly the last `limit` turn rows of the session in insertion (rowid)
order, most-recent-last; and its result is unchanged under arbitrary
rewriting of the wall-clock timestamps. -/
theorem C9_recent_turns_ordered :
    (∀ (st : Store) (cid : String) (limit : Nat),
        (get_conversation_context st cid limit).length ≤ limit)
    ∧ (∀ (st : Store) (cid : String) (limit : Nat),
        get_conversation_context st cid limit
          = ((st.turns.filter fun t => t.conversation_id == cid).drop
              ((st.turns.filter fun t => t.conversation_id == cid).length - limit)).map
              fun t => (t.user_message, t.ai_response))
    ∧ (∀ (st : Store) (cid : String) (limit : Nat) (g : Turn → Nat),
        get_conversation_context
            { st with turns := st.turns.map fun t => { t with timestamp := g t } } cid limit
          = get_conversation_context st cid limit) := by
  refine ⟨?_, ?_, ?_⟩
  · intro st cid limit
    unfold get_conversation_context
    simp only [List.length_map, List.length_reverse, List.length_take]
    omega
  · intro st cid limit
    unfold get_conversation_context
    rw [List.take_reverse, List.reverse_reverse]
  · intro st cid limit g
    unfold get_conversation_context
    simp only [filter_cid_map_stamp]
    rw [← List.map_reverse, ← List.map_take, ← List.map_reverse, List.map_map]
    rfl
